import Mathlib

/-!
Verification development for the `DateTimeInput` composite widget of
instructure-ui (`packages/ui-date-time-input/src/DateTimeInput/index.tsx`)
and its locale/timezone time utility (`TimeUtils`).

A calendar timestamp (the Luxon `DateTime` collaborator, at the
minute granularity the widget manipulates) is embedded as a record of
calendar components.  The widget's handlers are embedded as pure state
transformers; the external Luxon / `TimeSelect` collaborators
(ISO parsing, formatting, `now`, `getBaseDate`) are a parameter
structure `Env`, since the spec treats them as opaque external
collaborators.  A concrete ISO-8601 parser/formatter pair
(`parseISO` / `formatISO`), modelled from the spec, stands in for the
collaborator where a claim is about parsing itself.
-/

/-- A calendar timestamp at minute granularity: the components of a Luxon
`DateTime` that the `DateTimeInput` widget reads and writes
(`year`, `month`, `day`, `hour`, `minute`). -/
structure DT where
  year : Nat
  month : Nat
  day : Nat
  hour : Nat
  minute : Nat
deriving DecidableEq, Repr

/-- Gregorian leap-year rule. -/
def isLeapYear (y : Nat) : Bool :=
  (y % 4 == 0 && y % 100 != 0) || (y % 400 == 0)

/-- Number of days of month `m` of year `y` (months are 1-based). -/
def daysInMonth (y m : Nat) : Nat :=
  if m = 2 then (if isLeapYear y then 29 else 28)
  else if m = 4 ∨ m = 6 ∨ m = 9 ∨ m = 11 then 30
  else 31

/-- The date components are in range (a real calendar date). -/
def DT.DateValid (d : DT) : Prop :=
  1 ≤ d.month ∧ d.month ≤ 12 ∧ 1 ≤ d.day ∧ d.day ≤ daysInMonth d.year d.month

/-- The time-of-day components are in range. -/
def DT.TimeValid (d : DT) : Prop :=
  d.hour < 24 ∧ d.minute < 60

/-- A fully valid, fully resolved timestamp: the validity a Luxon
`DateTime` must satisfy for `isValid` to hold. -/
def DT.Valid (d : DT) : Prop :=
  d.DateValid ∧ d.TimeValid

instance (d : DT) : Decidable d.DateValid :=
  inferInstanceAs (Decidable (_ ∧ _ ∧ _ ∧ _))

instance (d : DT) : Decidable d.TimeValid :=
  inferInstanceAs (Decidable (_ ∧ _))

instance (d : DT) : Decidable d.Valid :=
  inferInstanceAs (Decidable (_ ∧ _))

/-- Luxon `plus({days: 1})`: exact calendar successor day. -/
def DT.plusOneDay (d : DT) : DT :=
  if d.day < daysInMonth d.year d.month then { d with day := d.day + 1 }
  else if d.month < 12 then { d with month := d.month + 1, day := 1 }
  else { d with year := d.year + 1, month := 1, day := 1 }

/-- Luxon `minus({days: 1})`: exact calendar predecessor day. -/
def DT.minusOneDay (d : DT) : DT :=
  if 1 < d.day then { d with day := d.day - 1 }
  else if 1 < d.month then
    { d with month := d.month - 1, day := daysInMonth d.year (d.month - 1) }
  else { d with year := d.year - 1, month := 12, day := daysInMonth (d.year - 1) 12 }

/-- Luxon `plus({months: 1})`: next month, clamping the day to the
length of the target month. -/
def DT.plusOneMonth (d : DT) : DT :=
  let y := if d.month = 12 then d.year + 1 else d.year
  let m := if d.month = 12 then 1 else d.month + 1
  { d with year := y, month := m, day := min d.day (daysInMonth y m) }

/-- Luxon `minus({months: 1})`: previous month, clamping the day to the
length of the target month. -/
def DT.minusOneMonth (d : DT) : DT :=
  let y := if d.month = 1 then d.year - 1 else d.year
  let m := if d.month = 1 then 12 else d.month - 1
  { d with year := y, month := m, day := min d.day (daysInMonth y m) }

/-- Value of a decimal digit character. -/
def digitToNat (c : Char) : Nat := c.toNat - 48

/-- Whether a character is a decimal digit. -/
def isDigitChar (c : Char) : Bool := 48 ≤ c.toNat && c.toNat ≤ 57

/-- The decimal digit character of a value below ten. -/
def natToDigit (n : Nat) : Char := Char.ofNat (48 + n)

/-- Range-check calendar components and assemble a timestamp;
`none` when any component is out of range. -/
def mkDT (year month day hour minute : Nat) : Option DT :=
  if 1 ≤ month ∧ month ≤ 12 ∧ 1 ≤ day ∧ day ≤ daysInMonth year month ∧
     hour ≤ 23 ∧ minute ≤ 59 ∧ year ≤ 9999
  then some ⟨year, month, day, hour, minute⟩ else none

/-- Modelled from the spec: the external ISO-8601 parser
(Luxon `DateTime.fromISO`, wrapped by `TimeUtils.parse`) is not part of
this repository; the spec describes it as accepting ISO-8601 date-time
strings such as `2018-01-18T13:10`.  `parseISO` accepts exactly the
canonical form `YYYY-MM-DDTHH:MM` with all components in range, and
returns `none` (an invalid `DateTime`) otherwise. -/
def parseISO (s : String) : Option DT :=
  match s.data with
  | [y1, y2, y3, y4, c1, m1, m2, c2, d1, d2, c3, h1, h2, c4, n1, n2] =>
    if c1 = '-' && c2 = '-' && c3 = 'T' && c4 = ':' &&
       isDigitChar y1 && isDigitChar y2 && isDigitChar y3 && isDigitChar y4 &&
       isDigitChar m1 && isDigitChar m2 && isDigitChar d1 && isDigitChar d2 &&
       isDigitChar h1 && isDigitChar h2 && isDigitChar n1 && isDigitChar n2
    then
      mkDT
        (1000 * digitToNat y1 + 100 * digitToNat y2 + 10 * digitToNat y3 + digitToNat y4)
        (10 * digitToNat m1 + digitToNat m2)
        (10 * digitToNat d1 + digitToNat d2)
        (10 * digitToNat h1 + digitToNat h2)
        (10 * digitToNat n1 + digitToNat n2)
    else none
  | _ => none

/-- Modelled from the spec: the external ISO-8601 formatter
(Luxon `DateTime.toISO`) is not part of this repository; `formatISO`
produces the canonical `YYYY-MM-DDTHH:MM` form. -/
def formatISO (d : DT) : String :=
  String.mk
    [natToDigit (d.year / 1000 % 10), natToDigit (d.year / 100 % 10),
     natToDigit (d.year / 10 % 10), natToDigit (d.year % 10), '-',
     natToDigit (d.month / 10 % 10), natToDigit (d.month % 10), '-',
     natToDigit (d.day / 10 % 10), natToDigit (d.day % 10), 'T',
     natToDigit (d.hour / 10 % 10), natToDigit (d.hour % 10), ':',
     natToDigit (d.minute / 10 % 10), natToDigit (d.minute % 10)]

/-- The `_checkParams` guard of `TimeUtils`: a JavaScript `== null`
check, matching exactly `null`/`undefined` (embedded as `none`); any
actual string, the empty string included, passes. -/
def _checkParams (locale timezone : Option String) : Except String Unit :=
  if locale = none then Except.error "locale must be specified"
  else if timezone = none then Except.error "timezone must be specified"
  else Except.ok ()

/-- `TimeUtils.now`: checks the mandatory parameters, then returns the
current moment (taken as the argument `current`, since the clock is an
external input) localized to the given locale and timezone. -/
def TimeUtils.now (current : DT) (locale timezone : Option String) :
    Except String DT :=
  match _checkParams locale timezone with
  | Except.error e => Except.error e
  | Except.ok _ => Except.ok current

/-- `TimeUtils.parse`: checks the mandatory parameters, then parses the
string with the ISO-8601 parser (Luxon `DateTime.fromISO`, modelled by
`parseISO`); the result is `none` exactly when the parsed `DateTime` is
invalid. -/
def TimeUtils.parse (dateString : String) (locale timezone : Option String) :
    Except String (Option DT) :=
  match _checkParams locale timezone with
  | Except.error e => Except.error e
  | Except.ok _ => Except.ok (parseISO dateString)

/-- Type of a form feedback message (`FormMessage.type`). -/
inductive MessageType where
  | success
  | error
deriving DecidableEq, Repr

/-- A `FormMessage` shown below the component. -/
structure FormMessage where
  text : String
  type : MessageType
deriving DecidableEq, Repr

/-- The `invalidDateTimeMessage` prop: either a static string or a
callback receiving the raw (unparsed) date text. -/
inductive InvalidDateTimeMessage where
  | str (text : String) : InvalidDateTimeMessage
  | fn (f : String → String) : InvalidDateTimeMessage

/-- The configured invalid-value message applied to a raw value:
`typeof invalidDateTimeMessage === 'function' ? invalidDateTimeMessage(raw) : invalidDateTimeMessage`. -/
def invalidMessageText (m : InvalidDateTimeMessage) (raw : String) : String :=
  match m with
  | InvalidDateTimeMessage.fn f => f raw
  | InvalidDateTimeMessage.str t => t

/-- The props of `DateTimeInput` that the reconciliation logic reads.
`hasOnChange` records whether an `onChange` handler was supplied. -/
structure Props where
  invalidDateTimeMessage : InvalidDateTimeMessage
  isRequired : Bool
  messageFormat : Option String
  dateFormat : Option String
  hasOnChange : Bool

/-- JavaScript truthiness of a string: `false` exactly on the empty
string. -/
def truthy (s : String) : Bool := s ≠ ""

/-- JavaScript truthiness of an optional string: `false` on
`undefined`/`null` and on the empty string. -/
def truthyOpt : Option String → Bool
  | none => false
  | some s => truthy s

/-- The `dateFormat` getter:
`this.props.dateFormat ? this.props.dateFormat : 'DDD'`. -/
def dateFormatOf (props : Props) : String :=
  match props.dateFormat with
  | some f => if truthy f then f else "DDD"
  | none => "DDD"

/-- The external collaborators of the widget, which the spec treats as
opaque: the Luxon parse/format operations in the component's fixed
locale and timezone, the current moment, and the `TimeSelect` child's
base date (`this._timeInput?.getBaseDate()`, absent when the ref is not
set).

`parse s = some d` embeds `TimeUtils.parse(s, locale, tz)` returning a
`DateTime` with `isValid` true; `parse s = none` embeds an invalid
result.  `toISO` embeds `DateTime.toISO` on a valid `DateTime`
(`toISO` of an invalid `DateTime` is `null`, embedded as `Option.map`).
`fromFormat text fmt` embeds `DateTime.fromFormat(text, fmt, ...)`,
`none` when invalid.  `toFormat fmt d` embeds `d.toFormat(fmt)`. -/
structure Env where
  parse : String → Option DT
  toISO : DT → String
  toFormat : String → DT → String
  fromFormat : String → String → Option DT
  now : DT
  baseDate : Option DT

/-- The component state `DateTimeInputState`. -/
structure DateTimeInputState where
  iso : Option DT
  renderedDate : DT
  dateInputText : String
  timeSelectValue : Option String
  message : Option FormMessage
  isShowingCalendar : Bool

/-- The object literal returned by `recalculateState`.  Its failure
branch has no `timeSelectValue` key, so merging it into the component
state leaves `timeSelectValue` unchanged; `timeSelectValue = none`
records the absent key, `some v` a present key of value `v`. -/
structure RecalcResult where
  iso : Option DT
  dateInputText : String
  message : Option FormMessage
  renderedDate : DT
  timeSelectValue : Option (Option String)

/-- `recalculateState(dateStr, doNotChangeDate, doNotChangeTime)`:
parses `dateStr`; on a valid parse, optionally re-imposes the hour and
minute (`doNotChangeTime`) or the day, month and year
(`doNotChangeDate`) of the currently committed `state.iso`, derives the
formatted date text, success message, `timeSelectValue` and rendered
date; otherwise clears the value and, when `dateStr` is truthy and
non-empty or the field is required, derives the configured
invalid-value message. -/
def recalculateState (env : Env) (props : Props) (st : DateTimeInputState)
    (dateStr : Option String) (doNotChangeDate doNotChangeTime : Bool) :
    RecalcResult :=
  let failResult : Option FormMessage → RecalcResult := fun errorMsg =>
    { iso := none
      dateInputText := ""
      message := errorMsg
      renderedDate := env.now
      timeSelectValue := none }
  match dateStr with
  | none => failResult none
  | some s =>
    if truthy s then
      match env.parse s with
      | some parsed0 =>
        let parsed1 :=
          if doNotChangeTime then
            match st.iso with
            | some iso => { parsed0 with hour := iso.hour, minute := iso.minute }
            | none => parsed0
          else parsed0
        let parsed :=
          if doNotChangeDate then
            match st.iso with
            | some iso =>
              { parsed1 with day := iso.day, month := iso.month, year := iso.year }
            | none => parsed1
          else parsed1
        let newTimeSelectValue : Option String :=
          if truthyOpt st.timeSelectValue then st.timeSelectValue
          else
            env.baseDate.map fun b =>
              env.toISO { b with minute := parsed.minute, hour := parsed.hour }
        let msgText :=
          match props.messageFormat with
          | some f => if truthy f then env.toFormat f parsed else env.toFormat "ffff" parsed
          | none => env.toFormat "ffff" parsed
        { iso := some parsed
          dateInputText := env.toFormat (dateFormatOf props) parsed
          message := some { text := msgText, type := MessageType.success }
          timeSelectValue := some newTimeSelectValue
          renderedDate := parsed }
      | none =>
        let errorMsg :=
          if s.length > 0 || props.isRequired then
            let text := invalidMessageText props.invalidDateTimeMessage s
            if truthy text then some { text := text, type := MessageType.error }
            else none
          else none
        failResult errorMsg
    else failResult none

/-- Result of running one event handler: the state after React applies
the queued `setState` updates in order, and the `onChange` invocation
(`some v`: called with ISO value `v`, where `v = none` embeds
`undefined`; `none`: not called). -/
structure StepResult where
  state : DateTimeInputState
  onChangeCall : Option (Option String)

/-- Merge a `recalculateState` result into the component state
(React `setState` shallow merge; an absent `timeSelectValue` key leaves
the field unchanged). -/
def applyRecalc (st : DateTimeInputState) (r : RecalcResult) :
    DateTimeInputState :=
  { st with
    iso := r.iso
    dateInputText := r.dateInputText
    message := r.message
    renderedDate := r.renderedDate
    timeSelectValue :=
      match r.timeSelectValue with
      | some v => v
      | none => st.timeSelectValue }

/-- `changeStateIfNeeded(newState, e)`: always updates the message;
returns early when neither the old nor the new value is defined;
otherwise, when the old value is undefined, the new value is undefined,
or the two differ under `DateTime.equals` (embedded as structural
equality of the calendar components), commits the new state and invokes
`onChange` (when supplied) with the new ISO value. -/
def changeStateIfNeeded (env : Env) (props : Props)
    (st : DateTimeInputState) (newState : RecalcResult) : StepResult :=
  let st1 := { st with message := newState.message }
  if newState.iso = none ∧ st.iso = none then
    { state := st1, onChangeCall := none }
  else if st.iso = none ∨ newState.iso = none ∨ st.iso ≠ newState.iso then
    { state := applyRecalc st1 newState
      onChangeCall :=
        if props.hasOnChange then some (newState.iso.map env.toISO) else none }
  else
    { state := st1, onChangeCall := none }

/-- `handleDayClick(event, { date })`: when a time is already selected
but no date text is present, adjusts the clicked date's time-of-day to
the selected time before recomputing (an invalid intermediate
`DateTime`, e.g. from a `null` date, propagates as `none`); otherwise
recomputes from the clicked date keeping the committed time
(`doNotChangeTime`).  `date` is `none` when the caller passed the
`null` result of `toISO` on an invalid `DateTime`. -/
def handleDayClick (env : Env) (props : Props) (st : DateTimeInputState)
    (date : Option String) : StepResult :=
  let newState :=
    if truthyOpt st.timeSelectValue && !truthy st.dateInputText then
      let dateParsed0 :=
        match date with
        | some ds => env.parse ds
        | none => none
      let timeParsed :=
        match st.timeSelectValue with
        | some ts => env.parse ts
        | none => none
      let dateParsed :=
        match dateParsed0, timeParsed with
        | some dp, some tp => some { dp with hour := tp.hour, minute := tp.minute }
        | _, _ => none
      recalculateState env props st (dateParsed.map env.toISO) false false
    else
      recalculateState env props st date false true
  changeStateIfNeeded env props st newState

/-- `handleDateTextChange(event, date)`: reparses the entered localized
text with `DateTime.fromFormat` and delegates to `handleDayClick` with
its ISO rendering (`null`, i.e. `none`, when invalid). -/
def handleDateTextChange (env : Env) (props : Props)
    (st : DateTimeInputState) (value : String) : StepResult :=
  handleDayClick env props st
    ((env.fromFormat value (dateFormatOf props)).map env.toISO)

/-- `handleTimeChange(event, option)`: uses the option's ISO value when
a date is committed, otherwise the raw input text (which is expected to
fail to parse); recomputes keeping the committed date
(`doNotChangeDate`), then records the selected option as
`timeSelectValue`. -/
def handleTimeChange (env : Env) (props : Props) (st : DateTimeInputState)
    (value inputText : String) : StepResult :=
  let newValue :=
    match st.iso with
    | some _ => value
    | none => inputText
  let newState := recalculateState env props st (some newValue) true false
  let r := changeStateIfNeeded env props st newState
  { r with state := { r.state with timeSelectValue := some value } }

/-- `handleBlur(e)`: reparses the current date text with
`DateTime.fromFormat` and recomputes keeping the committed time.
(The deferred `onBlur` notification is outside the state model.) -/
def handleBlur (env : Env) (props : Props) (st : DateTimeInputState) :
    StepResult :=
  changeStateIfNeeded env props st
    (recalculateState env props st
      ((env.fromFormat st.dateInputText (dateFormatOf props)).map env.toISO)
      false true)

/-- `handleSelectNextDay(event)`: advances the committed value (or the
rendered date when none) by one day and delegates to `handleDayClick`. -/
def handleSelectNextDay (env : Env) (props : Props)
    (st : DateTimeInputState) : StepResult :=
  let toAlter :=
    (match st.iso with
     | some i => i
     | none => st.renderedDate).plusOneDay
  handleDayClick env props st (some (env.toISO toAlter))

/-- `handleSelectPrevDay(event)`: the one-day-backwards analogue of
`handleSelectNextDay`. -/
def handleSelectPrevDay (env : Env) (props : Props)
    (st : DateTimeInputState) : StepResult :=
  let toAlter :=
    (match st.iso with
     | some i => i
     | none => st.renderedDate).minusOneDay
  handleDayClick env props st (some (env.toISO toAlter))

/-- `handleRenderNextMonth(event)`: advances only the rendered month. -/
def handleRenderNextMonth (st : DateTimeInputState) : StepResult :=
  { state := { st with renderedDate := st.renderedDate.plusOneMonth },
    onChangeCall := none }

/-- `handleRenderPrevMonth(event)`: rewinds only the rendered month. -/
def handleRenderPrevMonth (st : DateTimeInputState) : StepResult :=
  { state := { st with renderedDate := st.renderedDate.minusOneMonth },
    onChangeCall := none }

/-- `handleShowCalendar(event)`. -/
def handleShowCalendar (st : DateTimeInputState) : StepResult :=
  { state := { st with isShowingCalendar := true }, onChangeCall := none }

/-- `handleHideCalendar(event)`. -/
def handleHideCalendar (st : DateTimeInputState) : StepResult :=
  { state := { st with isShowingCalendar := false }, onChangeCall := none }

/-- The user-input events of `DateTimeInput`. -/
inductive Event where
  | dayClick (date : Option String)
  | dateTextChange (value : String)
  | timeChange (value inputText : String)
  | blur
  | selectNextDay
  | selectPrevDay
  | renderNextMonth
  | renderPrevMonth
  | showCalendar
  | hideCalendar

/-- One step of the widget: dispatch an event to its handler. -/
def step (env : Env) (props : Props) (st : DateTimeInputState) :
    Event → StepResult
  | Event.dayClick date => handleDayClick env props st date
  | Event.dateTextChange value => handleDateTextChange env props st value
  | Event.timeChange value inputText => handleTimeChange env props st value inputText
  | Event.blur => handleBlur env props st
  | Event.selectNextDay => handleSelectNextDay env props st
  | Event.selectPrevDay => handleSelectPrevDay env props st
  | Event.renderNextMonth => handleRenderNextMonth st
  | Event.renderPrevMonth => handleRenderPrevMonth st
  | Event.showCalendar => handleShowCalendar st
  | Event.hideCalendar => handleHideCalendar st

/-- The state invariant of the spec: the committed value, when present,
is a fully valid timestamp, and the rendered date is valid. -/
def StateValid (st : DateTimeInputState) : Prop :=
  (∀ d, st.iso = some d → d.Valid) ∧ st.renderedDate.Valid

/-- The external parser only produces valid timestamps (Luxon's
`isValid` contract). -/
def EnvParseValid (env : Env) : Prop :=
  ∀ s d, env.parse s = some d → d.Valid

/-- The documentation's sample timestamp 2018-01-18T13:10. -/
def sampleDT : DT := ⟨2018, 1, 18, 13, 10⟩

/-- A concrete environment whose collaborators are the canonical
ISO-8601 parser and formatter (localized formatting is stubbed by the
canonical form; `fromFormat` rejects, as on unparseable text). -/
def isoEnv : Env :=
  { parse := parseISO
    toISO := formatISO
    toFormat := fun _ d => formatISO d
    fromFormat := fun _ _ => none
    now := ⟨2020, 1, 1, 0, 0⟩
    baseDate := none }

/-- An environment whose parser rejects every string, as the Luxon
parser does on the raw text of a time-of-day option. -/
def rejectEnv : Env :=
  { isoEnv with parse := fun _ => none }

/-- Sample props with a static invalid-value message. -/
def sampleProps : Props :=
  { invalidDateTimeMessage := InvalidDateTimeMessage.str "That is not a valid date."
    isRequired := false
    messageFormat := none
    dateFormat := none
    hasOnChange := true }

/-- Props of the documented required-field scenario: `isRequired` with
the documentation's message callback. -/
def requiredProps : Props :=
  { sampleProps with
    isRequired := true
    invalidDateTimeMessage := InvalidDateTimeMessage.fn fun raw =>
      if raw = "" then "Date and time values are required."
      else raw ++ " is not a valid date." }

/-- A state with the sample timestamp committed. -/
def committedState : DateTimeInputState :=
  { iso := some sampleDT
    renderedDate := sampleDT
    dateInputText := "January 18, 2018"
    timeSelectValue := some "2018-01-18T13:10"
    message := none
    isShowingCalendar := false }

/-- The pristine state of an empty field. -/
def emptyState : DateTimeInputState :=
  { iso := none
    renderedDate := ⟨2020, 1, 1, 0, 0⟩
    dateInputText := ""
    timeSelectValue := none
    message := none
    isShowingCalendar := false }

/-! Helper lemmas. -/

theorem string_length_pos (s : String) (h : s ≠ "") : 0 < s.length := by
  cases s with
  | mk l =>
    cases l with
    | nil => exact absurd rfl h
    | cons c cs => simp [String.length]

theorem truthy_eq_true (s : String) (h : s ≠ "") : truthy s = true := by
  simp [truthy, h]

theorem isDigitChar_natToDigit (k : Nat) (h : k ≤ 9) :
    isDigitChar (natToDigit k) = true := by
  interval_cases k <;> rfl

theorem digitToNat_natToDigit (k : Nat) (h : k ≤ 9) :
    digitToNat (natToDigit k) = k := by
  interval_cases k <;> rfl

theorem isDigitChar_mod (a : Nat) : isDigitChar (natToDigit (a % 10)) = true :=
  isDigitChar_natToDigit _ (by omega)

theorem digitToNat_mod (a : Nat) : digitToNat (natToDigit (a % 10)) = a % 10 :=
  digitToNat_natToDigit _ (by omega)

theorem mkDT_bounds (y m d h n : Nat) (dt : DT)
    (hm : mkDT y m d h n = some dt) :
    dt = ⟨y, m, d, h, n⟩ ∧ 1 ≤ m ∧ m ≤ 12 ∧ 1 ≤ d ∧ d ≤ daysInMonth y m ∧
    h ≤ 23 ∧ n ≤ 59 ∧ y ≤ 9999 := by
  unfold mkDT at hm
  split at hm
  case isTrue hcond =>
    cases hm
    exact ⟨rfl, hcond⟩
  case isFalse => cases hm

theorem parseISO_bounds (s : String) (dt : DT) (h : parseISO s = some dt) :
    1 ≤ dt.month ∧ dt.month ≤ 12 ∧ 1 ≤ dt.day ∧
    dt.day ≤ daysInMonth dt.year dt.month ∧
    dt.hour ≤ 23 ∧ dt.minute ≤ 59 ∧ dt.year ≤ 9999 := by
  unfold parseISO at h
  split at h
  · split at h
    · obtain ⟨hdt, hb⟩ := mkDT_bounds _ _ _ _ _ dt h
      subst hdt
      exact hb
    · cases h
  · cases h

theorem parseISO_formatISO (dt : DT)
    (hm1 : 1 ≤ dt.month) (hm2 : dt.month ≤ 12) (hd1 : 1 ≤ dt.day)
    (hd2 : dt.day ≤ daysInMonth dt.year dt.month) (hh : dt.hour ≤ 23)
    (hn : dt.minute ≤ 59) (hy : dt.year ≤ 9999) :
    parseISO (formatISO dt) = some dt := by
  have hyear : 1000 * (dt.year / 1000 % 10) + 100 * (dt.year / 100 % 10) +
      10 * (dt.year / 10 % 10) + dt.year % 10 = dt.year := by omega
  have hmonth : 10 * (dt.month / 10 % 10) + dt.month % 10 = dt.month := by omega
  have hday : 10 * (dt.day / 10 % 10) + dt.day % 10 = dt.day := by
    have : dt.day ≤ 31 := by
      have : daysInMonth dt.year dt.month ≤ 31 := by
        unfold daysInMonth
        split
        · split <;> omega
        · split <;> omega
      omega
    omega
  have hhour : 10 * (dt.hour / 10 % 10) + dt.hour % 10 = dt.hour := by omega
  have hminute : 10 * (dt.minute / 10 % 10) + dt.minute % 10 = dt.minute := by omega
  unfold parseISO formatISO
  simp only [isDigitChar_mod, digitToNat_mod, Bool.and_true, Bool.true_and,
    decide_True, decide_true_eq_true]
  simp only [hyear, hmonth, hday, hhour, hminute]
  unfold mkDT
  simp [hm1, hm2, hd1, hd2, hh, hn, hy]

theorem daysInMonth_pos (y m : Nat) : 1 ≤ daysInMonth y m := by
  unfold daysInMonth
  split
  · split <;> omega
  · split <;> omega

theorem setTime_valid (p q : DT) (hp : p.Valid) (hq : q.Valid) :
    ({ p with hour := q.hour, minute := q.minute } : DT).Valid :=
  ⟨hp.1, hq.2⟩

theorem setDate_valid (p q : DT) (hp : p.Valid) (hq : q.Valid) :
    ({ p with day := q.day, month := q.month, year := q.year } : DT).Valid :=
  ⟨hq.1, hp.2⟩

theorem plusOneMonth_valid (d : DT) (h : d.Valid) : d.plusOneMonth.Valid := by
  obtain ⟨⟨h1, h2, h3, _⟩, ht⟩ := h
  unfold DT.plusOneMonth
  refine ⟨⟨?_, ?_, ?_, ?_⟩, ht⟩
  · simp only []
    split <;> omega
  · simp only []
    split <;> omega
  · exact le_min h3 (daysInMonth_pos _ _)
  · exact min_le_right _ _

theorem minusOneMonth_valid (d : DT) (h : d.Valid) : d.minusOneMonth.Valid := by
  obtain ⟨⟨h1, h2, h3, _⟩, ht⟩ := h
  unfold DT.minusOneMonth
  refine ⟨⟨?_, ?_, ?_, ?_⟩, ht⟩
  · simp only []
    split <;> omega
  · simp only []
    split <;> omega
  · exact le_min h3 (daysInMonth_pos _ _)
  · exact min_le_right _ _

theorem recalc_valid (env : Env) (props : Props) (st : DateTimeInputState)
    (dateStr : Option String) (b1 b2 : Bool)
    (henv : EnvParseValid env) (hnow : env.now.Valid) (hst : StateValid st) :
    (∀ d, (recalculateState env props st dateStr b1 b2).iso = some d → d.Valid) ∧
    (recalculateState env props st dateStr b1 b2).renderedDate.Valid := by
  unfold recalculateState
  cases dateStr with
  | none => exact ⟨fun d h => Option.noConfusion h, hnow⟩
  | some s =>
    by_cases hs : truthy s
    · simp only [hs, if_true]
      cases hp : env.parse s with
      | none => exact ⟨fun d h => Option.noConfusion h, hnow⟩
      | some p =>
        have hpv : p.Valid := henv s p hp
        have h1 : (if b2 then
            match st.iso with
            | some iso => { p with hour := iso.hour, minute := iso.minute }
            | none => p
          else p).Valid := by
          cases b2 with
          | false => exact hpv
          | true =>
            cases hiso : st.iso with
            | none => exact hpv
            | some iso => exact setTime_valid p iso hpv (hst.1 iso hiso)
        set p1 := (if b2 then
            match st.iso with
            | some iso => { p with hour := iso.hour, minute := iso.minute }
            | none => p
          else p) with hp1
        have h2 : (if b1 then
            match st.iso with
            | some iso => { p1 with day := iso.day, month := iso.month, year := iso.year }
            | none => p1
          else p1).Valid := by
          cases b1 with
          | false => exact h1
          | true =>
            cases hiso : st.iso with
            | none => exact h1
            | some iso => exact setDate_valid p1 iso h1 (hst.1 iso hiso)
        refine ⟨fun d h => ?_, ?_⟩
        · cases h
          exact h2
        · exact h2
    · simp only [hs, if_false]
      exact ⟨fun d h => Option.noConfusion h, hnow⟩

theorem changeState_state_valid (env : Env) (props : Props)
    (st : DateTimeInputState) (r : RecalcResult)
    (hr1 : ∀ d, r.iso = some d → d.Valid) (hr2 : r.renderedDate.Valid)
    (hst : StateValid st) :
    StateValid (changeStateIfNeeded env props st r).state := by
  unfold changeStateIfNeeded
  split
  · exact ⟨hst.1, hst.2⟩
  · split
    · exact ⟨hr1, hr2⟩
    · exact ⟨hst.1, hst.2⟩

theorem changeState_iso_cases (env : Env) (props : Props)
    (st : DateTimeInputState) (r : RecalcResult) :
    (changeStateIfNeeded env props st r).state.iso = r.iso ∨
    (changeStateIfNeeded env props st r).state.iso = st.iso := by
  unfold changeStateIfNeeded
  split
  · exact Or.inr rfl
  · split
    · exact Or.inl rfl
    · exact Or.inr rfl

theorem recalc_keep_time (env : Env) (props : Props) (st : DateTimeInputState)
    (dateStr : Option String) (b1 : Bool) (d : DT) (hiso : st.iso = some d) :
    ∀ d', (recalculateState env props st dateStr b1 true).iso = some d' →
      d'.hour = d.hour ∧ d'.minute = d.minute := by
  intro d' h
  cases dateStr with
  | none => simp [recalculateState] at h
  | some s =>
    by_cases hs : truthy s = true
    · cases hp : env.parse s with
      | none => simp [recalculateState, hs, hp] at h
      | some p =>
        cases b1 with
        | false =>
          simp only [recalculateState, hs, if_true, hp, hiso,
            Bool.false_eq_true, if_false] at h
          cases h
          exact ⟨rfl, rfl⟩
        | true =>
          simp only [recalculateState, hs, if_true, hp, hiso] at h
          cases h
          exact ⟨rfl, rfl⟩
    · simp [recalculateState, hs] at h

theorem recalc_keep_date (env : Env) (props : Props) (st : DateTimeInputState)
    (dateStr : Option String) (b2 : Bool) (d : DT) (hiso : st.iso = some d) :
    ∀ d', (recalculateState env props st dateStr true b2).iso = some d' →
      d'.year = d.year ∧ d'.month = d.month ∧ d'.day = d.day := by
  intro d' h
  cases dateStr with
  | none => simp [recalculateState] at h
  | some s =>
    by_cases hs : truthy s = true
    · cases hp : env.parse s with
      | none => simp [recalculateState, hs, hp] at h
      | some p =>
        cases b2 with
        | false =>
          simp only [recalculateState, hs, if_true, hp, hiso,
            Bool.false_eq_true, if_false] at h
          cases h
          exact ⟨rfl, rfl, rfl⟩
        | true =>
          simp only [recalculateState, hs, if_true, hp, hiso] at h
          cases h
          exact ⟨rfl, rfl, rfl⟩
    · simp [recalculateState, hs] at h

theorem dayClick_keep_time (env : Env) (props : Props)
    (st : DateTimeInputState) (date : Option String) (d : DT)
    (hiso : st.iso = some d) (htext : st.dateInputText ≠ "") :
    ∀ d', (handleDayClick env props st date).state.iso = some d' →
      d'.hour = d.hour ∧ d'.minute = d.minute := by
  intro d' h
  have hbranch : (truthyOpt st.timeSelectValue && !truthy st.dateInputText) = false := by
    simp [truthy_eq_true _ htext]
  simp only [handleDayClick, hbranch, Bool.false_eq_true, if_false] at h
  rcases changeState_iso_cases env props st
      (recalculateState env props st date false true) with hc | hc
  · rw [hc] at h
    exact recalc_keep_time env props st date false d hiso d' h
  · rw [hc, hiso] at h
    cases h
    exact ⟨rfl, rfl⟩

theorem timeChange_keep_date (env : Env) (props : Props)
    (st : DateTimeInputState) (value inputText : String) (d : DT)
    (hiso : st.iso = some d) :
    ∀ d', (handleTimeChange env props st value inputText).state.iso = some d' →
      d'.year = d.year ∧ d'.month = d.month ∧ d'.day = d.day := by
  intro d' h
  simp only [handleTimeChange, hiso] at h
  rcases changeState_iso_cases env props st
      (recalculateState env props st (some value) true false) with hc | hc
  · rw [hc] at h
    exact recalc_keep_date env props st (some value) false d hiso d' h
  · rw [hc, hiso] at h
    cases h
    exact ⟨rfl, rfl, rfl⟩

theorem dayClick_state_valid (env : Env) (props : Props)
    (st : DateTimeInputState) (date : Option String)
    (henv : EnvParseValid env) (hnow : env.now.Valid) (hst : StateValid st) :
    StateValid (handleDayClick env props st date).state := by
  unfold handleDayClick
  cases hc : (truthyOpt st.timeSelectValue && !truthy st.dateInputText) with
  | true =>
    simp only [hc, if_true]
    exact changeState_state_valid env props st _
      (recalc_valid env props st _ false false henv hnow hst).1
      (recalc_valid env props st _ false false henv hnow hst).2 hst
  | false =>
    simp only [hc, Bool.false_eq_true, if_false]
    exact changeState_state_valid env props st _
      (recalc_valid env props st date false true henv hnow hst).1
      (recalc_valid env props st date false true henv hnow hst).2 hst

/-! The claims. -/

/-- C1: when no date has been committed (`state.iso` undefined), handling
a time selection via `handleTimeChange` never produces a defined
committed value — `state.iso` stays undefined and `onChange` is not
called at all — and the configured `invalidDateTimeMessage` (string, or
callback applied to the raw input text) is surfaced as the error
message (the raw text of a pure time selection is not a parseable
date-time, and the configured message is non-empty). -/
theorem handleTimeChange_without_date_errors
    (env : Env) (props : Props) (st : DateTimeInputState)
    (value inputText : String)
    (hiso : st.iso = none)
    (hparse : env.parse inputText = none)
    (hne : inputText ≠ "")
    (hmsg : invalidMessageText props.invalidDateTimeMessage inputText ≠ "") :
    (handleTimeChange env props st value inputText).state.iso = none ∧
    (handleTimeChange env props st value inputText).onChangeCall = none ∧
    (handleTimeChange env props st value inputText).state.message =
      some { text := invalidMessageText props.invalidDateTimeMessage inputText,
             type := MessageType.error } := by
  have hlen : 0 < inputText.length := string_length_pos inputText hne
  simp only [handleTimeChange, hiso]
  simp only [recalculateState, truthy_eq_true inputText hne, if_true, hparse,
    hlen, decide_eq_true_eq, truthy_eq_true _ hmsg]
  simp [changeStateIfNeeded, hiso, hlen]

/-- C1 witness: the scenario at a concrete input — an empty state, a
rejecting parser, the documented message callback and the raw option
text of a half past one selection. -/
theorem handleTimeChange_without_date_errors_witness :
    emptyState.iso = none ∧
    rejectEnv.parse "1:30 AM" = none ∧
    "1:30 AM" ≠ "" ∧
    invalidMessageText requiredProps.invalidDateTimeMessage "1:30 AM" ≠ "" ∧
    ((handleTimeChange rejectEnv requiredProps emptyState
        "2020-01-01T01:30" "1:30 AM").state.iso = none ∧
     (handleTimeChange rejectEnv requiredProps emptyState
        "2020-01-01T01:30" "1:30 AM").onChangeCall = none ∧
     (handleTimeChange rejectEnv requiredProps emptyState
        "2020-01-01T01:30" "1:30 AM").state.message =
       some { text := invalidMessageText requiredProps.invalidDateTimeMessage "1:30 AM",
              type := MessageType.error }) :=
  ⟨rfl, rfl, by decide, by decide,
    handleTimeChange_without_date_errors rejectEnv requiredProps emptyState
      "2020-01-01T01:30" "1:30 AM" rfl rfl (by decide) (by decide)⟩

/-- C2: `changeStateIfNeeded` invokes the external `onChange` callback
if and only if the newly computed value differs from the committed one
(`DateTime.equals` embedded as structural equality of the calendar
components); recomputing a state whose value equals the committed value
never re-fires `onChange`. -/
theorem changeStateIfNeeded_fires_iff
    (env : Env) (props : Props) (st : DateTimeInputState)
    (newState : RecalcResult) (h : props.hasOnChange = true) :
    (changeStateIfNeeded env props st newState).onChangeCall ≠ none ↔
      newState.iso ≠ st.iso := by
  unfold changeStateIfNeeded
  rcases hn : newState.iso with _ | dn <;> rcases hs : st.iso with _ | ds
  · simp [hn, hs]
  · simp [hn, hs, h]
  · simp [hn, hs, h]
  · by_cases hd : ds = dn
    · subst hd
      simp [hn, hs]
    · simp [hn, hs, h, hd, Ne.symm hd]

/-- C2 witness: at a concrete committed state and a recomputation that
clears the value, the callback fires; the hypothesis is the presence of
an `onChange` handler. -/
theorem changeStateIfNeeded_fires_iff_witness :
    sampleProps.hasOnChange = true ∧
    ((changeStateIfNeeded isoEnv sampleProps committedState
        (recalculateState isoEnv sampleProps committedState none false false)).onChangeCall ≠ none ↔
      (recalculateState isoEnv sampleProps committedState none false false).iso ≠
        committedState.iso) :=
  ⟨rfl, changeStateIfNeeded_fires_iff isoEnv sampleProps committedState
    (recalculateState isoEnv sampleProps committedState none false false) rfl⟩

/-- C3: with a committed value present (and hence a non-empty formatted
date text), a date edit — a day click with any date payload, or a date
text change — preserves the committed hour and minute exactly: any
resulting committed value carries the previous time-of-day. -/
theorem date_edit_preserves_time_components
    (env : Env) (props : Props) (st : DateTimeInputState)
    (date : Option String) (value : String) (d : DT)
    (hiso : st.iso = some d) (htext : st.dateInputText ≠ "") :
    (∀ d', (handleDayClick env props st date).state.iso = some d' →
      d'.hour = d.hour ∧ d'.minute = d.minute) ∧
    (∀ d', (handleDateTextChange env props st value).state.iso = some d' →
      d'.hour = d.hour ∧ d'.minute = d.minute) :=
  ⟨dayClick_keep_time env props st date d hiso htext,
   dayClick_keep_time env props st _ d hiso htext⟩

/-- C3 witness: clicking the next calendar day with the sample value
committed keeps 13:10. -/
theorem date_edit_preserves_time_components_witness :
    committedState.iso = some sampleDT ∧
    committedState.dateInputText ≠ "" ∧
    (∀ d', (handleDayClick isoEnv sampleProps committedState
        (some "2018-01-19T13:10")).state.iso = some d' →
      d'.hour = sampleDT.hour ∧ d'.minute = sampleDT.minute) :=
  ⟨rfl, by decide,
    (date_edit_preserves_time_components isoEnv sampleProps committedState
      (some "2018-01-19T13:10") "" sampleDT rfl (by decide)).1⟩

/-- C4: with a committed value present, a time selection handled by
`handleTimeChange` preserves the committed year, month and day exactly:
any resulting committed value carries the previous date components. -/
theorem time_edit_preserves_date_components
    (env : Env) (props : Props) (st : DateTimeInputState)
    (value inputText : String) (d : DT) (hiso : st.iso = some d) :
    ∀ d', (handleTimeChange env props st value inputText).state.iso = some d' →
      d'.year = d.year ∧ d'.month = d.month ∧ d'.day = d.day :=
  timeChange_keep_date env props st value inputText d hiso

/-- C4 witness: selecting 01:30 with the sample value committed keeps
2018-01-18. -/
theorem time_edit_preserves_date_components_witness :
    committedState.iso = some sampleDT ∧
    (∀ d', (handleTimeChange isoEnv sampleProps committedState
        "2018-01-18T01:30" "1:30 AM").state.iso = some d' →
      d'.year = sampleDT.year ∧ d'.month = sampleDT.month ∧ d'.day = sampleDT.day) :=
  ⟨rfl, time_edit_preserves_date_components isoEnv sampleProps committedState
    "2018-01-18T01:30" "1:30 AM" sampleDT rfl⟩

/-- C5: evaluation of the code at the failing input of the claim.  For a
required field with empty date and time inputs, losing focus shows NO
error message: `handleBlur` feeds the empty text through `fromFormat`,
whose invalid result renders to a `null` date string, so
`recalculateState` takes its falsy-input branch and never reaches the
`dateStr.length > 0 || isRequired` error check (whose `isRequired`
disjunct is unreachable from `handleBlur`).  The committed value stays
undefined and the change callback does not fire, but the caller-supplied
invalid-value message is not surfaced, contradicting the claim. -/
theorem handleBlur_required_empty_shows_no_message :
    (handleBlur isoEnv requiredProps emptyState).state.message = none ∧
    (handleBlur isoEnv requiredProps emptyState).onChangeCall = none ∧
    (handleBlur isoEnv requiredProps emptyState).state.iso = none := by
  decide

/-- C6 counterexample: previous/next-day calendar navigation does
commit a value.  At the sample committed state, `handleSelectNextDay`
fires `onChange` (with the next day's ISO value) and replaces
`state.iso`, refuting the claim that none of the navigation operations
commits until a day is explicitly activated. -/
theorem handleSelectNextDay_commits_value :
    (handleSelectNextDay isoEnv sampleProps committedState).onChangeCall =
      some (some "2018-01-19T13:10") ∧
    (handleSelectNextDay isoEnv sampleProps committedState).state.iso ≠
      committedState.iso := by
  decide

/-- C6 amended: previous/next-month navigation mutates only the
rendered month — the committed value is unchanged and `onChange` is
never invoked — while previous/next-day navigation delegates to the
day-click handler on the adjacent day of the committed value (or of the
rendered date when none is committed) and therefore commits like an
explicit day activation. -/
theorem calendar_navigation_amended
    (env : Env) (props : Props) (st : DateTimeInputState) :
    (handleRenderNextMonth st).state.iso = st.iso ∧
    (handleRenderNextMonth st).onChangeCall = none ∧
    (handleRenderNextMonth st).state =
      { st with renderedDate := st.renderedDate.plusOneMonth } ∧
    (handleRenderPrevMonth st).state.iso = st.iso ∧
    (handleRenderPrevMonth st).onChangeCall = none ∧
    (handleRenderPrevMonth st).state =
      { st with renderedDate := st.renderedDate.minusOneMonth } ∧
    handleSelectNextDay env props st =
      handleDayClick env props st
        (some (env.toISO
          ((match st.iso with
            | some i => i
            | none => st.renderedDate).plusOneDay))) ∧
    handleSelectPrevDay env props st =
      handleDayClick env props st
        (some (env.toISO
          ((match st.iso with
            | some i => i
            | none => st.renderedDate).minusOneDay))) :=
  ⟨rfl, rfl, rfl, rfl, rfl, rfl, rfl, rfl⟩

/-- C7: the locale and timezone parameters of the time utility's
current-moment and parse operations are mandatory — whenever either is
omitted (`null`/`undefined`), both `TimeUtils.now` and
`TimeUtils.parse` raise an explicit error instead of silently using a
default. -/
theorem timeUtils_missing_params_error
    (current : DT) (s : String) (locale timezone : Option String)
    (h : locale = none ∨ timezone = none) :
    (∃ e, TimeUtils.now current locale timezone = Except.error e) ∧
    (∃ e, TimeUtils.parse s locale timezone = Except.error e) := by
  rcases h with h | h
  · subst h
    exact ⟨⟨_, rfl⟩, ⟨_, rfl⟩⟩
  · subst h
    cases locale with
    | none => exact ⟨⟨_, rfl⟩, ⟨_, rfl⟩⟩
    | some l => exact ⟨⟨_, rfl⟩, ⟨_, rfl⟩⟩

/-- C7 witness: omitting the locale at a concrete call errors. -/
theorem timeUtils_missing_params_error_witness :
    ((none : Option String) = none ∨ (some "America/Denver" : Option String) = none) ∧
    ((∃ e, TimeUtils.now sampleDT none (some "America/Denver") = Except.error e) ∧
     (∃ e, TimeUtils.parse "2018-01-18T13:10" none (some "America/Denver") =
        Except.error e)) :=
  ⟨Or.inl rfl, timeUtils_missing_params_error sampleDT "2018-01-18T13:10"
    none (some "America/Denver") (Or.inl rfl)⟩

/-- C8: parsing a valid ISO-8601 input with `TimeUtils.parse` under a
fixed locale and timezone, formatting the resulting instant, and
re-parsing the formatted string yields the same calendar instant as the
first parse. -/
theorem timeUtils_parse_format_roundtrip
    (s : String) (locale timezone : String) (dt : DT)
    (h : TimeUtils.parse s (some locale) (some timezone) = Except.ok (some dt)) :
    TimeUtils.parse (formatISO dt) (some locale) (some timezone) =
      TimeUtils.parse s (some locale) (some timezone) := by
  have hp : parseISO s = some dt := by
    simpa [TimeUtils.parse, _checkParams] using h
  obtain ⟨b1, b2, b3, b4, b5, b6, b7⟩ := parseISO_bounds s dt hp
  have hr : parseISO (formatISO dt) = some dt :=
    parseISO_formatISO dt b1 b2 b3 b4 b5 b6 b7
  simp [TimeUtils.parse, _checkParams, hr, hp]

/-- C8 witness: the documented default value round-trips. -/
theorem timeUtils_parse_format_roundtrip_witness :
    TimeUtils.parse "2018-01-18T13:10" (some "en-US") (some "America/Denver") =
      Except.ok (some sampleDT) ∧
    TimeUtils.parse (formatISO sampleDT) (some "en-US") (some "America/Denver") =
      TimeUtils.parse "2018-01-18T13:10" (some "en-US") (some "America/Denver") :=
  ⟨rfl, timeUtils_parse_format_roundtrip "2018-01-18T13:10"
    "en-US" "America/Denver" sampleDT rfl⟩

/-- C9: every operation of `DateTimeInput` preserves the invariant that
the committed value `state.iso`, whenever defined, is a fully valid,
fully resolved timestamp, and that the rendered-month state
`renderedDate` is a defined, valid date — given that the external
parser only yields valid timestamps and the current moment is valid. -/
theorem step_preserves_state_validity
    (env : Env) (props : Props) (st : DateTimeInputState) (ev : Event)
    (henv : EnvParseValid env) (hnow : env.now.Valid) (hst : StateValid st) :
    StateValid (step env props st ev).state := by
  cases ev with
  | dayClick date => exact dayClick_state_valid env props st date henv hnow hst
  | dateTextChange value => exact dayClick_state_valid env props st _ henv hnow hst
  | timeChange value inputText =>
    exact changeState_state_valid env props st _
      (recalc_valid env props st _ true false henv hnow hst).1
      (recalc_valid env props st _ true false henv hnow hst).2 hst
  | blur =>
    exact changeState_state_valid env props st _
      (recalc_valid env props st _ false true henv hnow hst).1
      (recalc_valid env props st _ false true henv hnow hst).2 hst
  | selectNextDay => exact dayClick_state_valid env props st _ henv hnow hst
  | selectPrevDay => exact dayClick_state_valid env props st _ henv hnow hst
  | renderNextMonth => exact ⟨hst.1, plusOneMonth_valid _ hst.2⟩
  | renderPrevMonth => exact ⟨hst.1, minusOneMonth_valid _ hst.2⟩
  | showCalendar => exact hst
  | hideCalendar => exact hst

/-- C9 witness: the invariant holds after a concrete step from the
pristine state under a rejecting external parser. -/
theorem step_preserves_state_validity_witness :
    EnvParseValid rejectEnv ∧ rejectEnv.now.Valid ∧ StateValid emptyState ∧
    StateValid (step rejectEnv sampleProps emptyState Event.renderNextMonth).state :=
  ⟨fun _ d h => Option.noConfusion h, by decide,
   ⟨fun d h => Option.noConfusion h, by decide⟩,
   step_preserves_state_validity rejectEnv sampleProps emptyState
     Event.renderNextMonth (fun _ d h => Option.noConfusion h) (by decide)
     ⟨fun d h => Option.noConfusion h, by decide⟩⟩

/-- C10: the mandatory-parameter check of the time utility only rejects
`null`/`undefined` — for every non-null locale and timezone argument,
the empty string included, `_checkParams` passes and `TimeUtils.now`
and `TimeUtils.parse` do not raise the missing-parameter error. -/
theorem timeUtils_accepts_any_nonnull_params
    (current : DT) (s : String) (locale timezone : String) :
    _checkParams (some locale) (some timezone) = Except.ok () ∧
    TimeUtils.now current (some locale) (some timezone) = Except.ok current ∧
    TimeUtils.parse s (some locale) (some timezone) =
      Except.ok (parseISO s) :=
  ⟨rfl, rfl, rfl⟩
